import Mathlib

/-!
Shallow embedding of the sync engine in `synapse/handlers/sync.py` and
verification of the specification's claims about it.

Conventions of the embedding:
* Opaque identifiers of the source (event ids, room ids, user ids,
  event types, state keys, error codes) are modelled as `Nat`.
* Python dicts are modelled as association lists built so that a later
  binding for a key overrides an earlier one (`dedupKeysKeepLast`);
  Python 2 dict iteration order is unspecified, so any fixed
  deterministic order is a valid determinization.
* External collaborators (the storage engine, the visibility filter,
  the filter collection) are passed as function parameters.
* Asynchronous code is sequentialized: each `yield` of the source is a
  plain call of the corresponding collaborator parameter.
-/

namespace Synapse

/-- Membership constants from `synapse.api.constants.Membership` that
`sync.py` uses. -/
inductive Membership
  | join
  | invite
  | leave
  | ban
  deriving DecidableEq, Repr

/-- An event as seen by the sync handler.  `pos` is the event's position on
the room stream and `before` models `internal_metadata.before`, the stream
position just before the event. -/
structure Event where
  event_id : Nat
  room_id : Nat
  sender : Nat
  etype : Nat       -- the source's `type` field
  state_key : Nat
  membership : Membership
  is_state : Bool
  origin_server_ts : Nat
  pos : Nat
  before : Nat
  deriving DecidableEq, Repr

/-- The fragments of the code embedded here only ever read or replace the
`room_key` sub-position of a stream token, so the token is modelled by that
single sub-position.  `copy_and_replace("room_key", k)` becomes a structure
update. -/
structure StreamToken where
  room_key : Nat
  deriving DecidableEq, Repr

/-- `TimelineBatch` from `sync.py`.  Its Python truthiness
(`__nonzero__`) is `bool(self.events)`, i.e. event-list non-emptiness. -/
structure TimelineBatch where
  prev_batch : StreamToken
  events : List Event
  limited : Bool
  deriving DecidableEq, Repr

/-- Python-dict model: keep, for every key, only its last binding.  The
values of the resulting association list are exactly the values of the
Python dict built by inserting the bindings in list order. -/
def dedupKeysKeepLast {α β : Type} [DecidableEq α] : List (α × β) → List (α × β)
  | [] => []
  | x :: xs =>
    if x.1 ∈ xs.map Prod.fst then dedupKeysKeepLast xs
    else x :: dedupKeysKeepLast xs

theorem dedupKeysKeepLast_subset {α β : Type} [DecidableEq α]
    (l : List (α × β)) (p : α × β) (h : p ∈ dedupKeysKeepLast l) : p ∈ l := by
  induction l with
  | nil => simp [dedupKeysKeepLast] at h
  | cons x xs ih =>
    rw [dedupKeysKeepLast] at h
    by_cases hc : x.1 ∈ xs.map Prod.fst
    · simp only [hc, if_true] at h
      exact List.mem_cons_of_mem _ (ih h)
    · simp only [hc, if_false] at h
      rcases List.mem_cons.mp h with h | h
      · exact h ▸ List.mem_cons_self _ _
      · exact List.mem_cons_of_mem _ (ih h)

theorem dedupKeysKeepLast_keys_complete {α β : Type} [DecidableEq α]
    (l : List (α × β)) (k : α) (h : k ∈ l.map Prod.fst) :
    ∃ v, (k, v) ∈ dedupKeysKeepLast l := by
  induction l with
  | nil => simp at h
  | cons x xs ih =>
    rw [dedupKeysKeepLast]
    rw [List.map_cons, List.mem_cons] at h
    by_cases hc : x.1 ∈ xs.map Prod.fst
    · simp only [hc, if_true]
      rcases h with h | h
      · exact ih (h ▸ hc)
      · exact ih h
    · simp only [hc, if_false]
      rcases h with h | h
      · exact ⟨x.2, by
          have : (k, x.2) = x := by
            cases x
            simp_all
          rw [this]
          exact List.mem_cons_self _ _⟩
      · rcases ih h with ⟨v, hv⟩
        exact ⟨v, List.mem_cons_of_mem _ hv⟩

theorem dedupKeysKeepLast_keys_nodup {α β : Type} [DecidableEq α]
    (l : List (α × β)) : ((dedupKeysKeepLast l).map Prod.fst).Nodup := by
  induction l with
  | nil => simp [dedupKeysKeepLast]
  | cons x xs ih =>
    rw [dedupKeysKeepLast]
    by_cases hc : x.1 ∈ xs.map Prod.fst
    · simpa [hc] using ih
    · simp only [hc, if_false, List.map_cons]
      rw [List.nodup_cons]
      refine ⟨?_, ih⟩
      intro hmem
      rcases List.mem_map.mp hmem with ⟨p, hp, hpk⟩
      have hp' : p ∈ xs := dedupKeysKeepLast_subset xs p hp
      exact hc (List.mem_map.mpr ⟨p, hp', hpk⟩)

theorem lookup_eq_some_of_mem {α β : Type} [DecidableEq α]
    (l : List (α × β)) (hnd : (l.map Prod.fst).Nodup) (k : α) (v : β)
    (h : (k, v) ∈ l) : l.lookup k = some v := by
  induction l with
  | nil => simp at h
  | cons x xs ih =>
    rw [List.map_cons, List.nodup_cons] at hnd
    rcases List.mem_cons.mp h with h | h
    · rw [← h]
      simp [List.lookup]
    · have hk : k ∈ xs.map Prod.fst := List.mem_map.mpr ⟨(k, v), h, rfl⟩
      have hx : (k == x.1) = false := by
        cases hbk : (k == x.1) with
        | true =>
          exact absurd ((beq_iff_eq.mp hbk) ▸ hk) hnd.1
        | false => rfl
      simp only [List.lookup, hx]
      exact ih hnd.2 h

theorem mem_of_lookup_eq_some {α β : Type} [DecidableEq α]
    (l : List (α × β)) (k : α) (v : β) (h : l.lookup k = some v) : (k, v) ∈ l := by
  induction l with
  | nil => simp [List.lookup] at h
  | cons x xs ih =>
    simp only [List.lookup] at h
    cases hbk : (k == x.1) with
    | true =>
      rw [hbk] at h
      have hk : k = x.1 := beq_iff_eq.mp hbk
      have hv : x.2 = v := by simpa using h
      have : (k, v) = x := by
        cases x
        simp_all
      rw [this]
      exact List.mem_cons_self _ _
    | false =>
      rw [hbk] at h
      exact List.mem_cons_of_mem _ (ih h)

/-- The concatenation of the four state maps' values, in the order the
source chains them when building `event_id_to_state`. -/
def cs_all (timeline_contains timeline_start previous current : List Event) :
    List Event :=
  timeline_contains ++ previous ++ timeline_start ++ current

/-- The `event_id_to_state` dict of `_calculate_state`. -/
def cs_idmap (timeline_contains timeline_start previous current : List Event) :
    List (Nat × Event) :=
  dedupKeysKeepLast
    ((cs_all timeline_contains timeline_start previous current).map
      (fun e => (e.event_id, e)))

/-- The `state_ids` set of `_calculate_state`:
`((c_ids | ts_ids) - p_ids) - tc_ids` (as a list possibly with duplicates;
only membership matters downstream). -/
def cs_state_ids (timeline_contains timeline_start previous current : List Event) :
    List Nat :=
  ((current.map Event.event_id ++ timeline_start.map Event.event_id).filter
    (fun i => !(decide (i ∈ previous.map Event.event_id)) &&
              !(decide (i ∈ timeline_contains.map Event.event_id))))

/-- The `evs` generator of `_calculate_state`: the selected ids resolved
through `event_id_to_state`. -/
def cs_evs (timeline_contains timeline_start previous current : List Event) :
    List Event :=
  (cs_state_ids timeline_contains timeline_start previous current).filterMap
    (fun i => (cs_idmap timeline_contains timeline_start previous current).lookup i)

/-- `_calculate_state(timeline_contains, timeline_start, previous, current)`
from `sync.py` (lines 1343-1377).  The source receives four dicts but only
uses their `.values()`, so each argument is modelled as a list of events.
The two Python dict comprehensions (`event_id_to_state`, modelled by
`cs_idmap`, and the result) are modelled by `dedupKeysKeepLast`. -/
def calculate_state (timeline_contains timeline_start previous current : List Event) :
    List ((Nat × Nat) × Event) :=
  dedupKeysKeepLast
    ((cs_evs timeline_contains timeline_start previous current).map
      (fun e => ((e.etype, e.state_key), e)))

/-- The id-level selection rule of `_calculate_state`:
`((current ∪ timeline_start) \ previous) \ timeline_contains`. -/
def selectedId (timeline_contains timeline_start previous current : List Event)
    (i : Nat) : Prop :=
  (i ∈ current.map Event.event_id ∨ i ∈ timeline_start.map Event.event_id) ∧
    i ∉ previous.map Event.event_id ∧ i ∉ timeline_contains.map Event.event_id

instance (tc ts p c : List Event) (i : Nat) : Decidable (selectedId tc ts p c i) := by
  unfold selectedId
  infer_instance

theorem cs_state_ids_iff (tc ts p c : List Event) (i : Nat) :
    i ∈ cs_state_ids tc ts p c ↔ selectedId tc ts p c i := by
  unfold cs_state_ids selectedId
  rw [List.mem_filter, List.mem_append]
  simp [decide_eq_true_iff]

theorem cs_idmap_mem (tc ts p c : List Event) (i : Nat) (e : Event)
    (h : (i, e) ∈ cs_idmap tc ts p c) : e ∈ cs_all tc ts p c ∧ e.event_id = i := by
  have h' := dedupKeysKeepLast_subset _ _ h
  rcases List.mem_map.mp h' with ⟨a, ha, hae⟩
  have h1 : a.event_id = i := congrArg Prod.fst hae
  have h2 : a = e := congrArg Prod.snd hae
  exact ⟨h2 ▸ ha, h2 ▸ h1⟩

theorem cs_evs_mem (tc ts p c : List Event) (e : Event)
    (h : e ∈ cs_evs tc ts p c) :
    e ∈ cs_all tc ts p c ∧ selectedId tc ts p c e.event_id := by
  rcases List.mem_filterMap.mp h with ⟨i, hi, hlook⟩
  have hmem := mem_of_lookup_eq_some _ _ _ hlook
  rcases cs_idmap_mem tc ts p c i e hmem with ⟨hall, hid⟩
  exact ⟨hall, hid ▸ (cs_state_ids_iff tc ts p c i).mp hi⟩

theorem cs_evs_mem_of (tc ts p c : List Event)
    (hids : ∀ e1 ∈ cs_all tc ts p c, ∀ e2 ∈ cs_all tc ts p c,
      e1.event_id = e2.event_id → e1 = e2)
    (e : Event) (hall : e ∈ cs_all tc ts p c)
    (hsel : selectedId tc ts p c e.event_id) : e ∈ cs_evs tc ts p c := by
  have hkey : e.event_id ∈
      ((cs_all tc ts p c).map (fun e => (e.event_id, e))).map Prod.fst := by
    rw [List.map_map]
    exact List.mem_map.mpr ⟨e, hall, rfl⟩
  rcases dedupKeysKeepLast_keys_complete _ _ hkey with ⟨v, hv⟩
  rcases cs_idmap_mem tc ts p c e.event_id v hv with ⟨hvall, hvid⟩
  have hve : v = e := hids v hvall e hall hvid
  subst hve
  have hlook : (cs_idmap tc ts p c).lookup v.event_id = some v :=
    lookup_eq_some_of_mem _ (dedupKeysKeepLast_keys_nodup _) _ _ hv
  exact List.mem_filterMap.mpr
    ⟨v.event_id, (cs_state_ids_iff tc ts p c v.event_id).mpr hsel, hlook⟩

/-- C1: the state-delta calculator `_calculate_state` delivers, as the
values of its result dict, events drawn from the four input maps whose ids
lie in `((current ∪ timeline_start) \ previous) \ timeline_contains` — and,
PROVIDED events with equal ids are equal across the four maps and no two
distinct selected events share a `(type, state_key)` pair, an event of the
maps is in the output exactly when its id lies in that set.  (Without the
provisos only the left-to-right inclusion holds: the result dict keeps a
single event per `(type, state_key)` key, so colliding selected events
collapse — see the counterexample.) -/
theorem C1_state_delta_amended (tc ts p c : List Event) :
    (∀ e ∈ (calculate_state tc ts p c).map Prod.snd,
        e ∈ cs_all tc ts p c ∧ selectedId tc ts p c e.event_id)
    ∧ ((∀ e1 ∈ cs_all tc ts p c, ∀ e2 ∈ cs_all tc ts p c,
          e1.event_id = e2.event_id → e1 = e2) →
       (∀ e1 ∈ cs_all tc ts p c, ∀ e2 ∈ cs_all tc ts p c,
          selectedId tc ts p c e1.event_id → selectedId tc ts p c e2.event_id →
          e1.etype = e2.etype → e1.state_key = e2.state_key → e1 = e2) →
       ∀ e ∈ cs_all tc ts p c,
         (e ∈ (calculate_state tc ts p c).map Prod.snd ↔
            selectedId tc ts p c e.event_id)) := by
  constructor
  · intro e he
    rcases List.mem_map.mp he with ⟨kv, hkv, hsnd⟩
    have hkv' := dedupKeysKeepLast_subset _ _ hkv
    rcases List.mem_map.mp hkv' with ⟨e', he', hpair⟩
    have : e' = e := by
      have := congrArg Prod.snd hpair
      simpa [hsnd] using this
    exact this ▸ cs_evs_mem tc ts p c e' he'
  · intro hids hkeys e hall
    constructor
    · intro he
      rcases List.mem_map.mp he with ⟨kv, hkv, hsnd⟩
      have hkv' := dedupKeysKeepLast_subset _ _ hkv
      rcases List.mem_map.mp hkv' with ⟨e', he', hpair⟩
      have he'e : e' = e := by
        have := congrArg Prod.snd hpair
        simpa [hsnd] using this
      exact he'e ▸ (cs_evs_mem tc ts p c e' he').2
    · intro hsel
      have hevs : e ∈ cs_evs tc ts p c := cs_evs_mem_of tc ts p c hids e hall hsel
      have hkey : (e.etype, e.state_key) ∈
          ((cs_evs tc ts p c).map (fun e => ((e.etype, e.state_key), e))).map Prod.fst := by
        rw [List.map_map]
        exact List.mem_map.mpr ⟨e, hevs, rfl⟩
      rcases dedupKeysKeepLast_keys_complete _ _ hkey with ⟨v, hv⟩
      have hv' := dedupKeysKeepLast_subset _ _ hv
      rcases List.mem_map.mp hv' with ⟨e', he', hpair⟩
      have hk1 : e'.etype = e.etype := by
        have := congrArg (fun q => q.1.1) hpair
        simpa using this
      have hk2 : e'.state_key = e.state_key := by
        have := congrArg (fun q => q.1.2) hpair
        simpa using this
      have hveq : e' = v := by
        have := congrArg Prod.snd hpair
        simpa using this
      rcases cs_evs_mem tc ts p c e' he' with ⟨hall', hsel'⟩
      have : e' = e := hkeys e' hall' e hall hsel' hsel hk1 hk2
      rw [List.mem_map]
      exact ⟨((e.etype, e.state_key), v), hv, by rw [← hveq, this]⟩

/-- A state event used in concrete evaluations. -/
def ce1 : Event :=
  { event_id := 1, room_id := 0, sender := 0, etype := 5, state_key := 6,
    membership := Membership.join, is_state := true, origin_server_ts := 0,
    pos := 0, before := 0 }

/-- A second state event with the same `(type, state_key)` pair as `ce1`
but a different event id. -/
def ce2 : Event :=
  { event_id := 2, room_id := 0, sender := 0, etype := 5, state_key := 6,
    membership := Membership.join, is_state := true, origin_server_ts := 0,
    pos := 0, before := 0 }

/-- C1 counterexample: with `timeline_start = {ce1}` and
`current = {ce2}` (same `(type, state_key)`, different ids) and empty
`previous`/`timeline_contains`, the id of `ce2` lies in
`((C ∪ TS) \ P) \ TC`, yet `ce2` is not among the values of the returned
dict — the claimed "event in output iff id selected" law fails. -/
theorem C1_state_delta_counterexample :
    ce2 ∈ cs_all [] [ce1] [] [ce2] ∧
    selectedId [] [ce1] [] [ce2] ce2.event_id ∧
    ce2 ∉ (calculate_state [] [ce1] [] [ce2]).map Prod.snd := by
  decide

/-- C1 witness: the amended law applied at a concrete input where the
provisos hold. -/
theorem C1_state_delta_witness :
    ce1 ∈ (calculate_state [] [] [] [ce1]).map Prod.snd :=
  ((C1_state_delta_amended [] [] [] [ce1]).2
    (by decide) (by decide) ce1 (by decide)).mpr (by decide)

/-- The `filtering_factor = 2` constant of `_load_filtered_recents`. -/
def filtering_factor : Nat := 2

/-- `load_limit = max(timeline_limit * filtering_factor, 10)` from
`_load_filtered_recents`. -/
def load_limit (timeline_limit : Nat) : Nat :=
  max (timeline_limit * filtering_factor) 10

/-- The initial `limited` flag of `_load_filtered_recents`:
`recents is None or newly_joined_room or timeline_limit < len(recents)`. -/
def initial_limited (recents : Option (List Event)) (newly_joined_room : Bool)
    (timeline_limit : Nat) : Bool :=
  recents.isNone || newly_joined_room ||
    decide (timeline_limit < (recents.getD []).length)

/-- The back-fill `while` loop of `_load_filtered_recents`.  `store` models
`store.get_room_events_stream_for_room(room_id, limit, from_key, to_key)`
returning `(events, end_key)`; `ftl` and `vis` model
`filter_collection.filter_room_timeline` and `filter_events_for_client`.
The fuel argument is `max_repeat` (initially 5); the loop guard is
`limited and len(recents) < timeline_limit and max_repeat`.  The loop sets
`limited = False` and breaks exactly when the store returned at most
`ll` events for the query of `ll + 1`. -/
def backfill (store : Nat → Nat → Option Nat → Nat → List Event × Nat)
    (ftl vis : Event → Bool) (room_id ll timeline_limit : Nat)
    (since_key : Option Nat) :
    Nat → Nat → List Event → Bool → List Event × Bool
  | 0, _, recents, limited => (recents, limited)
  | fuel + 1, end_key, recents, limited =>
    if limited && decide (recents.length < timeline_limit) then
      let q := store room_id (ll + 1) since_key end_key
      let recents1 := ((q.1.filter ftl).filter vis) ++ recents
      if q.1.length ≤ ll then (recents1, false)
      else backfill store ftl vis room_id ll timeline_limit since_key fuel
        q.2 recents1 limited
    else (recents, limited)

/-- The trim step at the end of `_load_filtered_recents`:
`if len(recents) > timeline_limit: limited = True;
recents = recents[-timeline_limit:]; room_key = recents[0].before`.
Note Python's `recents[-0:]` is the whole list, hence the
`timeline_limit = 0` case.  Returns `(recents, limited, room_key)`. -/
def trim (timeline_limit room_key : Nat) (recents : List Event)
    (limited : Bool) : List Event × Bool × Nat :=
  if timeline_limit < recents.length then
    let r := if timeline_limit = 0 then recents
             else recents.drop (recents.length - timeline_limit)
    (r, true, ((r.head?).map Event.before).getD room_key)
  else (recents, limited, room_key)

/-- The candidate filtering of `_load_filtered_recents`: `if recents:`
apply `filter_room_timeline` then `filter_events_for_client`, else `[]`. -/
def lfr_filtered (ftl vis : Event → Bool) (recents0 : Option (List Event)) :
    List Event :=
  match recents0 with
  | some rs => if rs.isEmpty then [] else (rs.filter ftl).filter vis
  | none => []

/-- The `since_key` of `_load_filtered_recents`: `since_token.room_key`,
unless the room was newly joined (then no lower bound). -/
def lfr_since_key (since_token : Option StreamToken)
    (newly_joined_room : Bool) : Option Nat :=
  match since_token with
  | some st => if newly_joined_room then none else some st.room_key
  | none => none

/-- The limited path of `_load_filtered_recents`: run the back-fill loop
(5 attempts), trim, and package the batch with
`limited = limited or newly_joined_room`. -/
def lfr_tail (store : Nat → Nat → Option Nat → Nat → List Event × Nat)
    (ftl vis : Event → Bool) (timeline_limit room_id : Nat)
    (now_token : StreamToken) (since_token : Option StreamToken)
    (recents0 : Option (List Event)) (newly_joined_room : Bool) : TimelineBatch :=
  let res := backfill store ftl vis room_id (load_limit timeline_limit)
    timeline_limit (lfr_since_key since_token newly_joined_room) 5
    now_token.room_key (lfr_filtered ftl vis recents0)
    (initial_limited recents0 newly_joined_room timeline_limit)
  let t := trim timeline_limit now_token.room_key res.1 res.2
  { prev_batch := { now_token with room_key := t.2.2 },
    events := t.1,
    limited := t.2.1 || newly_joined_room }

/-- `_load_filtered_recents` from `sync.py` (lines 315-393), composed from
`initial_limited`, the candidate filtering, the `backfill` loop and the
`trim` step. -/
def load_filtered_recents (store : Nat → Nat → Option Nat → Nat → List Event × Nat)
    (ftl vis : Event → Bool) (timeline_limit room_id : Nat)
    (now_token : StreamToken) (since_token : Option StreamToken)
    (recents0 : Option (List Event)) (newly_joined_room : Bool) : TimelineBatch :=
  if initial_limited recents0 newly_joined_room timeline_limit = false then
    { prev_batch := now_token, events := lfr_filtered ftl vis recents0,
      limited := false }
  else
    lfr_tail store ftl vis timeline_limit room_id now_token since_token
      recents0 newly_joined_room

theorem trim_length_le (timeline_limit room_key : Nat) (recents : List Event)
    (limited : Bool) (h : 1 ≤ timeline_limit) :
    (trim timeline_limit room_key recents limited).1.length ≤ timeline_limit := by
  unfold trim
  split
  · rename_i hlt
    have h0 : ¬ timeline_limit = 0 := by omega
    simp only [h0, if_false]
    rw [List.length_drop]
    omega
  · rename_i hge
    simpa using Nat.le_of_not_lt hge

/-- C4 (amended): in `_load_filtered_recents`, whenever the returned batch
has `limited = true` the batch holds at most `timeline_limit` events
(provided `timeline_limit ≥ 1`; Python's `recents[-0:]` keeps everything).
The `prev_batch` room position equals the `before`-position of the earliest
retained event exactly when the trim ran, i.e. when the accumulated batch
exceeded `timeline_limit`; when `limited` is true without a trim (newly
joined room, or back-fill exhausted its 5 attempts) the trim is the
identity and the room position stays `now_token.room_key`, which need not
precede the earliest event — the claim's unconditional `prev_batch` part
fails there (see the counterexample). -/
theorem C4_timeline_limited_amended :
    (∀ store ftl vis timeline_limit room_id now_token since_token recents0
        newly_joined_room,
       1 ≤ timeline_limit →
       (load_filtered_recents store ftl vis timeline_limit room_id now_token
          since_token recents0 newly_joined_room).limited = true →
       (load_filtered_recents store ftl vis timeline_limit room_id now_token
          since_token recents0 newly_joined_room).events.length ≤ timeline_limit)
    ∧ (∀ timeline_limit room_key recents limited,
         timeline_limit < recents.length →
         ∃ e rest, (trim timeline_limit room_key recents limited).1 = e :: rest ∧
           (trim timeline_limit room_key recents limited).2.2 = e.before ∧
           (trim timeline_limit room_key recents limited).2.1 = true)
    ∧ (∀ timeline_limit room_key recents limited,
         recents.length ≤ timeline_limit →
         trim timeline_limit room_key recents limited = (recents, limited, room_key)) := by
  refine ⟨?_, ?_, ?_⟩
  · intro store ftl vis tl rid now since recents0 newly h1 _
    unfold load_filtered_recents
    split
    · rename_i hcase
      have hbound : (recents0.getD []).length ≤ tl := by
        unfold initial_limited at hcase
        simp only [Bool.or_eq_false_iff, decide_eq_false_iff_not, Nat.not_lt] at hcase
        exact hcase.2
      cases recents0 with
      | none => simp [lfr_filtered]
      | some rs =>
        simp only [lfr_filtered]
        split
        · simp
        · calc ((rs.filter ftl).filter vis).length
              ≤ (rs.filter ftl).length := List.length_filter_le _ _
            _ ≤ rs.length := List.length_filter_le _ _
            _ ≤ tl := hbound
    · exact trim_length_le tl now.room_key _ _ h1
  · intro tl rk recents limited hlt
    have htr : trim tl rk recents limited =
        ((if tl = 0 then recents else recents.drop (recents.length - tl)),
          true,
          (((if tl = 0 then recents
             else recents.drop (recents.length - tl)).head?).map
            Event.before).getD rk) := by
      unfold trim
      rw [if_pos hlt]
    by_cases h0 : tl = 0
    · subst h0
      cases recents with
      | nil => simp at hlt
      | cons e rest =>
        refine ⟨e, rest, ?_, ?_, ?_⟩ <;> rw [htr] <;> simp
    · have hlen : (recents.drop (recents.length - tl)).length = tl := by
        rw [List.length_drop]
        omega
      cases hd : recents.drop (recents.length - tl) with
      | nil =>
        rw [hd] at hlen
        simp at hlen
        omega
      | cons e rest =>
        refine ⟨e, rest, ?_, ?_, ?_⟩ <;> rw [htr] <;> simp [h0, hd]
  · intro tl rk recents limited hle
    unfold trim
    simp [Nat.not_lt.mpr hle]

/-- An event at stream position 5 (its `before` position is 4). -/
def ce3 : Event := { ce1 with event_id := 3, pos := 5, before := 4 }

/-- A store stub that never returns events. -/
def dummy_store : Nat → Nat → Option Nat → Nat → List Event × Nat :=
  fun _ _ _ _ => ([], 0)

/-- C4 counterexample: a newly-joined room with one candidate event and
`timeline_limit = 1`.  No trimming happens, the batch comes back with
`limited = true`, yet `prev_batch.room_key` is `now_token.room_key = 10`,
which is NOT strictly before the stream position 5 of the earliest (only)
event in the batch. -/
theorem C4_timeline_limited_counterexample :
    (load_filtered_recents dummy_store (fun _ => true) (fun _ => true) 1 0
       { room_key := 10 } none (some [ce3]) true).limited = true ∧
    (load_filtered_recents dummy_store (fun _ => true) (fun _ => true) 1 0
       { room_key := 10 } none (some [ce3]) true).events = [ce3] ∧
    ¬ ((load_filtered_recents dummy_store (fun _ => true) (fun _ => true) 1 0
       { room_key := 10 } none (some [ce3]) true).prev_batch.room_key < ce3.pos) := by
  decide

/-- C4 witness: the size bound of the amended claim evaluated at the
concrete newly-joined input. -/
theorem C4_timeline_limited_witness :
    (load_filtered_recents dummy_store (fun _ => true) (fun _ => true) 1 0
       { room_key := 10 } none (some [ce3]) true).events.length ≤ 1 :=
  C4_timeline_limited_amended.1 dummy_store (fun _ => true) (fun _ => true) 1 0
    { room_key := 10 } none (some [ce3]) true (by decide) (by decide)

/-- C5 (amended): the timeline loader's `limited` flag starts as
`(recents is None) ∨ newly_joined_room ∨ |recents| > timeline_limit`; the
back-fill loop stops immediately once the filtered batch has reached
`timeline_limit` events or the 5 attempts (`max_repeat`) are exhausted;
and in a running iteration `limited` becomes false exactly when the store
returns AT MOST `load_limit = max(timeline_limit * 2, 10)` events (i.e.
fewer than the `load_limit + 1` requested) — not, as the claim has it,
"fewer than `load_limit`": a query returning exactly `load_limit` events
also ends the loop with `limited = false` (see the counterexample). -/
theorem C5_backfill_amended :
    (∀ recents0 newly_joined_room timeline_limit,
       initial_limited recents0 newly_joined_room timeline_limit = true ↔
         (recents0 = none ∨ newly_joined_room = true ∨
           timeline_limit < (recents0.getD []).length))
    ∧ (∀ store ftl vis room_id timeline_limit since_key end_key recents limited,
         backfill store ftl vis room_id (load_limit timeline_limit)
           timeline_limit since_key 0 end_key recents limited = (recents, limited))
    ∧ (∀ store ftl vis room_id timeline_limit since_key fuel end_key recents limited,
         timeline_limit ≤ recents.length →
         backfill store ftl vis room_id (load_limit timeline_limit)
           timeline_limit since_key fuel end_key recents limited = (recents, limited))
    ∧ (∀ store ftl vis room_id timeline_limit since_key fuel end_key recents,
         recents.length < timeline_limit →
         (((store room_id (load_limit timeline_limit + 1) since_key end_key).1.length ≤
             load_limit timeline_limit →
           backfill store ftl vis room_id (load_limit timeline_limit)
             timeline_limit since_key (fuel + 1) end_key recents true =
             ((((store room_id (load_limit timeline_limit + 1) since_key
                 end_key).1.filter ftl).filter vis) ++ recents, false))
          ∧ (load_limit timeline_limit <
               (store room_id (load_limit timeline_limit + 1) since_key end_key).1.length →
             backfill store ftl vis room_id (load_limit timeline_limit)
               timeline_limit since_key (fuel + 1) end_key recents true =
               backfill store ftl vis room_id (load_limit timeline_limit)
                 timeline_limit since_key fuel
                 (store room_id (load_limit timeline_limit + 1) since_key end_key).2
                 ((((store room_id (load_limit timeline_limit + 1) since_key
                     end_key).1.filter ftl).filter vis) ++ recents) true)))
    ∧ (∀ timeline_limit, load_limit timeline_limit = max (timeline_limit * 2) 10) := by
  refine ⟨?_, ?_, ?_, ?_, ?_⟩
  · intro recents0 newly tl
    cases recents0 <;> cases newly <;>
      simp [initial_limited]
  · intro store ftl vis rid tl sk ek recents limited
    rfl
  · intro store ftl vis rid tl sk fuel ek recents limited h
    cases fuel with
    | zero => rfl
    | succ n =>
      rw [backfill]
      simp [Nat.not_lt.mpr h]
  · intro store ftl vis rid tl sk fuel ek recents h
    constructor
    · intro hle
      rw [backfill]
      simp only [h, decide_True, Bool.and_self, if_true]
      simp [hle]
    · intro hgt
      rw [backfill]
      simp only [h, decide_True, Bool.and_self, if_true]
      simp [Nat.not_le.mpr hgt]
  · intro tl
    rfl

/-- Ten distinct events, none of which survives the timeline filter in the
C5 counterexample. -/
def cex_events10 : List Event :=
  (List.range 10).map (fun i => { ce1 with event_id := 100 + i, pos := i })

/-- A store stub that always returns exactly `10 = load_limit 1` events. -/
def cex_store10 : Nat → Nat → Option Nat → Nat → List Event × Nat :=
  fun _ _ _ _ => (cex_events10, 0)

/-- C5 counterexample: with `timeline_limit = 1` (so
`load_limit = max(2, 10) = 10`), `recents = None` and a store returning
exactly `load_limit` events (all filtered out), the loop ends with
`limited = false` although the store did NOT return fewer than
`load_limit` events — refuting the claim's "fewer than load_limit"
boundary. -/
theorem C5_backfill_counterexample :
    initial_limited none false 1 = true ∧
    (cex_store10 0 (load_limit 1 + 1) none 100).1.length = load_limit 1 ∧
    (load_filtered_recents cex_store10 (fun _ => false) (fun _ => true) 1 0
       { room_key := 100 } none none false).limited = false := by
  refine ⟨by decide, by decide, by decide⟩

/-- C5 witness: the stop-on-at-most-load-limit rule applied at the
concrete input of the counterexample (fuel `5 = 4 + 1`). -/
theorem C5_backfill_witness :
    backfill cex_store10 (fun _ => false) (fun _ => true) 0 (load_limit 1) 1
      none 5 100 [] true =
      ((((cex_store10 0 (load_limit 1 + 1) none 100).1.filter
          (fun _ => false)).filter (fun _ => true)) ++ [], false) :=
  (C5_backfill_amended.2.2.2.1 cex_store10 (fun _ => false) (fun _ => true) 0 1
    none 4 100 [] (by decide)).1 (by decide)

/-- The `timeline_state` dict of `compute_state_delta`
(`{(event.type, event.state_key): event for event in batch.events if
event.is_state()}`), taken as its values. -/
def timeline_state_values (events : List Event) : List Event :=
  (dedupKeysKeepLast
    ((events.filter (fun e => e.is_state)).map
      (fun e => ((e.etype, e.state_key), e)))).map Prod.snd

/-- The four arguments `(timeline_contains, timeline_start, previous,
current)` that `compute_state_delta` (sync.py lines 436-518) passes to
`_calculate_state`, or `none` in the incremental unlimited branch, where
no state is computed.  `get_state_for_event` models
`store.get_state_for_event(event_id)` (the values of the returned state
dict); `state_at_now` models `get_state_at(room_id, now_token)`;
`state_at_since` models `get_state_at(room_id, since_token)`.  Python's
`batch.events[0]` / `batch.events[-1]` become `head?` / `getLast?` with a
default (the source would raise `IndexError` on an empty limited batch),
and `if batch:` is the batch's truthiness, i.e. event-list non-emptiness. -/
def compute_state_delta_args (get_state_for_event : Nat → List Event)
    (state_at_now state_at_since : List Event) (batch : TimelineBatch)
    (full_state : Bool) :
    Option (List Event × List Event × List Event × List Event) :=
  if full_state then
    if batch.events.isEmpty then
      some (timeline_state_values batch.events, state_at_now, [], state_at_now)
    else
      some (timeline_state_values batch.events,
            get_state_for_event ((batch.events.head?.map Event.event_id).getD 0),
            [],
            get_state_for_event ((batch.events.getLast?.map Event.event_id).getD 0))
  else if batch.limited then
    some (timeline_state_values batch.events,
          get_state_for_event ((batch.events.head?.map Event.event_id).getD 0),
          state_at_since,
          get_state_for_event ((batch.events.getLast?.map Event.event_id).getD 0))
  else none

/-- `compute_state_delta`: dispatch the arguments to `_calculate_state`
and key the filtered result by `(type, state_key)`.  `frs` models
`filter_collection.filter_room_state`. -/
def compute_state_delta (frs : Event → Bool) (get_state_for_event : Nat → List Event)
    (state_at_now state_at_since : List Event) (batch : TimelineBatch)
    (full_state : Bool) : List ((Nat × Nat) × Event) :=
  match compute_state_delta_args get_state_for_event state_at_now state_at_since
      batch full_state with
  | some (tc, ts, p, c) =>
      dedupKeysKeepLast
        ((((calculate_state tc ts p c).map Prod.snd).filter frs).map
          (fun e => ((e.etype, e.state_key), e)))
  | none => []

/-- C6 (amended): in full-state mode the state-delta calculator is always
invoked, always with `previous = ∅`; but `timeline_start` and `current`
both equal the state at the current tip ONLY when the timeline batch is
empty — for a non-empty batch they are the stored states at the first and
last batch events respectively, which need not be the state at the tip
(see the counterexample). -/
theorem C6_full_state_args_amended :
    ∀ get_state_for_event state_at_now state_at_since batch,
      (∃ x, compute_state_delta_args get_state_for_event state_at_now
              state_at_since batch true = some x)
      ∧ (∀ tc ts p c,
           compute_state_delta_args get_state_for_event state_at_now
             state_at_since batch true = some (tc, ts, p, c) →
           p = []
           ∧ (batch.events = [] → ts = state_at_now ∧ c = state_at_now)
           ∧ (batch.events ≠ [] →
                ts = get_state_for_event
                  ((batch.events.head?.map Event.event_id).getD 0) ∧
                c = get_state_for_event
                  ((batch.events.getLast?.map Event.event_id).getD 0))) := by
  intro gsfe snow ssince batch
  by_cases hbe : batch.events.isEmpty
  · have heq : compute_state_delta_args gsfe snow ssince batch true =
        some (timeline_state_values batch.events, snow, [], snow) := by
      unfold compute_state_delta_args
      simp [hbe]
    refine ⟨⟨_, heq⟩, ?_⟩
    intro tc ts p c h
    rw [heq] at h
    simp only [Option.some.injEq, Prod.mk.injEq] at h
    obtain ⟨-, hts, hp, hc⟩ := h
    refine ⟨hp.symm, fun _ => ⟨hts.symm, hc.symm⟩, fun hne => ?_⟩
    exact absurd (List.isEmpty_iff.mp hbe) hne
  · have heq : compute_state_delta_args gsfe snow ssince batch true =
        some (timeline_state_values batch.events,
              gsfe ((batch.events.head?.map Event.event_id).getD 0),
              [],
              gsfe ((batch.events.getLast?.map Event.event_id).getD 0)) := by
      unfold compute_state_delta_args
      simp [hbe]
    refine ⟨⟨_, heq⟩, ?_⟩
    intro tc ts p c h
    rw [heq] at h
    simp only [Option.some.injEq, Prod.mk.injEq] at h
    obtain ⟨-, hts, hp, hc⟩ := h
    refine ⟨hp.symm, fun he => ?_, fun _ => ⟨hts.symm, hc.symm⟩⟩
    exact absurd he (by simpa [List.isEmpty_iff] using hbe)

/-- A non-state timeline event with id 21. -/
def ce4 : Event := { ce1 with event_id := 21, is_state := false }

/-- A non-state timeline event with id 22. -/
def ce5 : Event := { ce1 with event_id := 22, is_state := false }

/-- A non-empty timeline batch holding `ce4, ce5`. -/
def cex_batch : TimelineBatch :=
  { prev_batch := { room_key := 0 }, events := [ce4, ce5], limited := true }

/-- A state store whose resolved state at event 21 is `{ce1}` and at any
other event is `{ce2}`. -/
def cex_gsfe : Nat → List Event := fun i => if i = 21 then [ce1] else [ce2]

/-- C6 counterexample: in full-state mode with the non-empty batch
`[ce4, ce5]` and state-at-tip `[ce2]`, the calculator receives
`timeline_start = [ce1]` (the state at the batch's first event), which
differs from the state at the tip — refuting the claim's
"timeline_start = current = state at tip for every batch". -/
theorem C6_full_state_args_counterexample :
    compute_state_delta_args cex_gsfe [ce2] [] cex_batch true =
      some ([], [ce1], [], [ce2]) ∧ ([ce1] : List Event) ≠ [ce2] := by
  decide

/-- C6 witness: the amended claim applied at the concrete non-empty-batch
input, with the `some`-equation hypothesis discharged by evaluation. -/
theorem C6_full_state_args_witness :
    ([] : List Event) = [] ∧
    (cex_batch.events = [] → [ce1] = ([ce2] : List Event) ∧ [ce2] = ([ce2] : List Event)) ∧
    (cex_batch.events ≠ [] →
      [ce1] = cex_gsfe ((cex_batch.events.head?.map Event.event_id).getD 0) ∧
      [ce2] = cex_gsfe ((cex_batch.events.getLast?.map Event.event_id).getD 0)) :=
  (C6_full_state_args_amended cex_gsfe [ce2] [] cex_batch).2 [] [ce1] [] [ce2]
    (by decide)

/-- Unread notification counts as returned by
`store.get_unread_event_push_actions_by_room_for_user`. -/
structure NotifCounts where
  notify_count : Nat
  highlight_count : Nat
  deriving DecidableEq, Repr

/-- `JoinedSyncResult` from `sync.py`.  `ephemeral` and `account_data`
entries are opaque to the claims, so they are modelled as `Nat`. -/
structure JoinedSyncResult where
  room_id : Nat
  timeline : TimelineBatch
  state : List ((Nat × Nat) × Event)
  ephemeral : List Nat
  account_data : List Nat
  unread_notifications : List (String × Nat)
  synced : Bool
  deriving DecidableEq, Repr

/-- `JoinedSyncResult.__nonzero__`: timeline or state or ephemeral or
account_data — the notification counts deliberately do not count. -/
def joined_nonzero (j : JoinedSyncResult) : Bool :=
  !j.timeline.events.isEmpty || !j.state.isEmpty ||
    !j.ephemeral.isEmpty || !j.account_data.isEmpty

/-- `ArchivedSyncResult` from `sync.py`. -/
structure ArchivedSyncResult where
  room_id : Nat
  timeline : TimelineBatch
  state : List ((Nat × Nat) × Event)
  account_data : List Nat
  deriving DecidableEq, Repr

/-- `InvitedSyncResult` from `sync.py` (its `__nonzero__` is always
true). -/
structure InvitedSyncResult where
  room_id : Nat
  invite : Event
  deriving DecidableEq, Repr

/-- `ErrorSyncResult` from `sync.py` (its `__nonzero__` is always true). -/
structure ErrorSyncResult where
  room_id : Nat
  errcode : Nat
  error : Nat
  deriving DecidableEq, Repr

/-- `SyncPaginationState` from `synapse.types`: `(order, value, limit,
tags)`; `order` and `tags` are opaque enumeration codes. -/
structure SyncPaginationState where
  order : Nat
  value : Nat
  limit : Nat
  tags : Nat
  deriving DecidableEq, Repr

/-- `SyncNextBatchToken`: the stream token plus the optional pagination
state. -/
structure SyncNextBatchToken where
  stream_token : StreamToken
  pagination_state : Option SyncPaginationState
  deriving DecidableEq, Repr

/-- `SyncResult` from `sync.py`.  Presence and account-data entries are
opaque to the claims and are modelled as `Nat`. -/
structure SyncResult where
  next_batch : SyncNextBatchToken
  presence : List Nat
  account_data : List Nat
  joined : List JoinedSyncResult
  invited : List InvitedSyncResult
  archived : List ArchivedSyncResult
  errors : List ErrorSyncResult
  pagination_info : Option Bool
  deriving DecidableEq, Repr

/-- `SyncResult.__nonzero__`:
`bool(presence or joined or invited or archived or account_data)` — the
predicate the notifier uses to decide whether the long-poll may return. -/
def sync_result_nonzero (r : SyncResult) : Bool :=
  !r.presence.isEmpty || !r.joined.isEmpty || !r.invited.isEmpty ||
    !r.archived.isEmpty || !r.account_data.isEmpty

/-- C7: a sync result counts as empty for the long-poll exactly when its
presence, joined, invited, archived and account_data collections are all
empty; the `errors` field (and every other field) is irrelevant to the
predicate. -/
theorem C7_sync_result_emptiness :
    (∀ r : SyncResult,
       sync_result_nonzero r = false ↔
         (r.presence = [] ∧ r.joined = [] ∧ r.invited = [] ∧
          r.archived = [] ∧ r.account_data = []))
    ∧ (∀ (r : SyncResult) (errs : List ErrorSyncResult),
         sync_result_nonzero { r with errors := errs } = sync_result_nonzero r) := by
  constructor
  · intro r
    simp [sync_result_nonzero, List.isEmpty_iff, and_assoc]
  · intro r errs
    rfl

/-- `unread_notifs_for_room_id` from `sync.py` (lines 520-538):
`last_receipt` models `store.get_last_receipt_event_id_for_user` and
`push_actions` models
`store.get_unread_event_push_actions_by_room_for_user`; the function
returns `None` exactly when the user has no read receipt in the room. -/
def unread_notifs_for_room_id (last_receipt : Option Nat)
    (push_actions : Nat → NotifCounts) : Option NotifCounts :=
  match last_receipt with
  | some ev => some (push_actions ev)
  | none => none

/-- The `unread_notifications` dict of `_generate_room_entry`: populated
with both counts when `unread_notifs_for_room_id` returned something,
left empty otherwise. -/
def unread_notifications_of (n : Option NotifCounts) : List (String × Nat) :=
  match n with
  | some c => [("notification_count", c.notify_count),
               ("highlight_count", c.highlight_count)]
  | none => []

/-- The `JoinedSyncResult` constructed by `_generate_room_entry` before
the notification counts are filled in (its `unread_notifications` dict
starts empty). -/
def gre_room_sync (room_id : Nat) (batch : TimelineBatch)
    (state : List ((Nat × Nat) × Event)) (ephemeral : List Nat)
    (account_data_events : List Nat) (synced : Bool) : JoinedSyncResult :=
  { room_id := room_id, timeline := batch, state := state,
    ephemeral := ephemeral, account_data := account_data_events,
    unread_notifications := [], synced := synced }

/-- The joined-room tail of `_generate_room_entry` (sync.py lines
1221-1242): build the `JoinedSyncResult` with an empty notification dict,
and append it (with the notification counts filled in) iff it is
non-empty or `always_include` holds.  Returns the appended result, or
`none` when the room is omitted. -/
def generate_room_entry_joined (room_id : Nat) (batch : TimelineBatch)
    (state : List ((Nat × Nat) × Event)) (ephemeral : List Nat)
    (account_data_events : List Nat) (always_include synced : Bool)
    (last_receipt : Option Nat) (push_actions : Nat → NotifCounts) :
    Option JoinedSyncResult :=
  if joined_nonzero (gre_room_sync room_id batch state ephemeral
       account_data_events synced) || always_include then
    some { gre_room_sync room_id batch state ephemeral account_data_events
             synced with
           unread_notifications :=
             unread_notifications_of
               (unread_notifs_for_room_id last_receipt push_actions) }
  else none

/-- C8: an emitted joined-room result carries no notification-count keys
at all when the user has no read receipt in the room, and carries exactly
the push-actions store's counts for the receipt event otherwise. -/
theorem C8_unread_counts :
    ∀ room_id batch state ephemeral account_data_events always_include synced
      last_receipt push_actions r,
      generate_room_entry_joined room_id batch state ephemeral
        account_data_events always_include synced last_receipt push_actions =
        some r →
      (last_receipt = none → r.unread_notifications = [])
      ∧ (∀ ev, last_receipt = some ev →
           r.unread_notifications =
             [("notification_count", (push_actions ev).notify_count),
              ("highlight_count", (push_actions ev).highlight_count)]) := by
  intro rid batch st eph acct ai syn lr pa r h
  unfold generate_room_entry_joined at h
  split at h
  · rw [Option.some.injEq] at h
    constructor
    · intro hlr
      rw [← h]
      simp [unread_notifications_of, unread_notifs_for_room_id, hlr]
    · intro ev hlr
      rw [← h]
      simp [unread_notifications_of, unread_notifs_for_room_id, hlr]
  · exact absurd h (by simp)

/-- The joined result emitted in the C8 witness evaluation. -/
def c8_result : JoinedSyncResult :=
  { room_id := 1,
    timeline := { prev_batch := { room_key := 0 }, events := [], limited := false },
    state := [], ephemeral := [], account_data := [],
    unread_notifications :=
      [("notification_count", 4), ("highlight_count", 2)],
    synced := true }

/-- C8 witness: with a read receipt at event 7 and push counts (4, 2),
the emitted result carries exactly those counts. -/
theorem C8_unread_counts_witness :
    c8_result.unread_notifications =
      [("notification_count", 4), ("highlight_count", 2)] :=
  (C8_unread_counts 1
      { prev_batch := { room_key := 0 }, events := [], limited := false }
      [] [] [] true true (some 7)
      (fun _ => { notify_count := 4, highlight_count := 2 })
      c8_result rfl).2 7 rfl

/-- C10: a joined room whose timeline, state delta, ephemeral list and
account data are all empty is omitted from the response when it is not
always-included — regardless of the read receipt and of the unread
notification counts the push store would report. -/
theorem C10_empty_joined_room_omitted :
    ∀ room_id batch state ephemeral account_data_events synced last_receipt
      push_actions,
      batch.events = [] → state = [] → ephemeral = [] →
      account_data_events = [] →
      generate_room_entry_joined room_id batch state ephemeral
        account_data_events false synced last_receipt push_actions = none := by
  intro rid batch st eph acct syn lr pa h1 h2 h3 h4
  subst h2 h3 h4
  unfold generate_room_entry_joined
  simp [joined_nonzero, gre_room_sync, h1]

/-- C10 witness: a room with changed unread counts (5 notifications, 3
highlights) but otherwise empty data is still omitted. -/
theorem C10_empty_joined_room_omitted_witness :
    generate_room_entry_joined 1
      { prev_batch := { room_key := 0 }, events := [], limited := true }
      [] [] [] false true (some 7)
      (fun _ => { notify_count := 5, highlight_count := 3 }) = none :=
  C10_empty_joined_room_omitted 1
    { prev_batch := { room_key := 0 }, events := [], limited := true }
    [] [] [] true (some 7)
    (fun _ => { notify_count := 5, highlight_count := 3 }) rfl rfl rfl rfl

/-- The `rtype` of a room materialization plan. -/
inductive Rtype
  | joined
  | archived
  deriving DecidableEq, Repr

/-- `RoomSyncResultBuilder` from `sync.py`: a room materialization plan.
The constructor defaults `always_include = False`,
`would_require_resync = False`, `synced = True` as in the source. -/
structure RoomSyncResultBuilder where
  room_id : Nat
  rtype : Rtype
  events : Option (List Event)
  newly_joined : Bool
  full_state : Bool
  since_token : Option StreamToken
  upto_token : StreamToken
  always_include : Bool := false
  would_require_resync : Bool := false
  synced : Bool := true
  deriving DecidableEq, Repr

/-- Deduplicate keeping first occurrences (a deterministic stand-in for
Python 2's unspecified dict iteration order when grouping
`mem_change_events_by_room_id`). -/
def firstOccurAux : List Nat → List Nat → List Nat
  | [], _ => []
  | x :: xs, seen =>
    if x ∈ seen then firstOccurAux xs seen
    else x :: firstOccurAux xs (x :: seen)

def firstOccur (l : List Nat) : List Nat := firstOccurAux l []

/-- The inputs of `_get_rooms_changed` (sync.py lines 925-1060):
* `joined_room_ids` — the user's current join set from
  `store.get_rooms_for_user`;
* `rooms_changed` — the membership change events in
  `(since_token.room_key, now_token.room_key]`, in stream order;
* `old_membership` — per room, the membership of the user's member event
  in `get_state_at(room_id, since_token)` (`none` = no member event);
* `leave_stream` — `store.get_stream_token_for_event` for the leave event;
* `since_is_after` — `since_token.is_after(leave_token)` for the leave
  event with the given id (the token comparison lives in `synapse.types`,
  outside this file's source);
* `room_to_events` — `store.get_room_events_stream_for_rooms`, per room
  `(events, start_key)` or absent;
* `ignored_users` — the user's ignored-users set. -/
structure GrcInput where
  joined_room_ids : List Nat
  rooms_changed : List Event
  old_membership : Nat → Option Membership
  leave_stream : Nat → Nat
  since_is_after : Nat → Bool
  room_to_events : Nat → Option (List Event × Nat)
  ignored_users : List Nat
  since_token : StreamToken
  now_token : StreamToken

/-- The room ids of `mem_change_events_by_room_id`. -/
def grc_mem_rooms (I : GrcInput) : List Nat :=
  firstOccur (I.rooms_changed.map Event.room_id)

/-- The membership change events of one room, in stream order. -/
def grc_changes (I : GrcInput) (rid : Nat) : List Event :=
  I.rooms_changed.filter (fun e => e.room_id = rid)

/-- `non_joins` for one room. -/
def grc_non_joins (I : GrcInput) (rid : Nat) : List Event :=
  (grc_changes I rid).filter (fun e => !(decide (e.membership = Membership.join)))

/-- `has_join` for one room: `len(non_joins) != len(events)`. -/
def grc_has_join (I : GrcInput) (rid : Nat) : Bool :=
  (grc_non_joins I rid).length ≠ (grc_changes I rid).length

/-- `newly_joined_rooms`: rooms of the change set that are currently
joined or saw a join, and whose membership at the cursor was not `JOIN`. -/
def grc_newly_joined_rooms (I : GrcInput) : List Nat :=
  (grc_mem_rooms I).filter (fun rid =>
    (decide (rid ∈ I.joined_room_ids) || grc_has_join I rid) &&
      (match I.old_membership rid with
       | none => true
       | some m => decide (m ≠ Membership.join)))

/-- The source's `event.sender not in ignored_users` check of the invite
branch: `event` is the LEAKED loop variable of the earlier
`for event in rooms_changed` loop, i.e. the last membership-change event
across ALL rooms — not the invite event. -/
def grc_last_sender_ok (I : GrcInput) : Bool :=
  match I.rooms_changed.getLast? with
  | some e => !(decide (e.sender ∈ I.ignored_users))
  | none => true

/-- The `InvitedSyncResult` contribution of one room of the change set
(`InvitedSyncResult.__nonzero__` is always true, so a built result is
always appended). -/
def grc_invite_for (I : GrcInput) (rid : Nat) : Option (Nat × Event) :=
  if rid ∈ I.joined_room_ids then none
  else
    match (grc_non_joins I rid).getLast? with
    | none => none
    | some lastNJ =>
      if lastNJ.membership = Membership.invite then
        if grc_last_sender_ok I then some (rid, lastNJ) else none
      else none

/-- The archived materialization plan of one room of the change set
(from the last leave/ban event, skipped when the cursor is already past
it). -/
def grc_archived_for (I : GrcInput) (rid : Nat) : Option RoomSyncResultBuilder :=
  if rid ∈ I.joined_room_ids then none
  else
    match ((grc_non_joins I rid).filter (fun e =>
        decide (e.membership = Membership.leave) ||
        decide (e.membership = Membership.ban))).getLast? with
    | none => none
    | some le =>
      if I.since_is_after le.event_id then none
      else some { room_id := rid, rtype := Rtype.archived, events := none,
                  newly_joined := decide (rid ∈ grc_newly_joined_rooms I),
                  full_state := false,
                  since_token := some I.since_token,
                  upto_token :=
                    { I.since_token with
                      room_key := I.leave_stream le.event_id } }

/-- The joined materialization plan of one currently-joined room. -/
def grc_joined_plan (I : GrcInput) (rid : Nat) : RoomSyncResultBuilder :=
  match I.room_to_events rid with
  | some (events, start_key) =>
    { room_id := rid, rtype := Rtype.joined, events := some events,
      newly_joined := decide (rid ∈ grc_newly_joined_rooms I),
      full_state := false,
      since_token := if rid ∈ grc_newly_joined_rooms I then none
                     else some I.since_token,
      upto_token := { I.now_token with room_key := start_key } }
  | none =>
    { room_id := rid, rtype := Rtype.joined, events := some [],
      newly_joined := decide (rid ∈ grc_newly_joined_rooms I),
      full_state := false,
      since_token := some I.since_token,
      upto_token := I.since_token }

/-- `_get_rooms_changed`: returns
`(room_entries, invited, newly_joined_rooms)`.  `room_entries` holds the
archived plans of the change loop followed by the joined plans of the
currently joined rooms, as in the source's append order. -/
def get_rooms_changed (I : GrcInput) :
    List RoomSyncResultBuilder × List (Nat × Event) × List Nat :=
  ((grc_mem_rooms I).filterMap (grc_archived_for I) ++
     I.joined_room_ids.map (grc_joined_plan I),
   (grc_mem_rooms I).filterMap (grc_invite_for I),
   grc_newly_joined_rooms I)

/-- The `CANNOT_PEEK` error emission of `_generate_sync_entry_for_rooms`
(sync.py lines 828-833): every peek-requested room that has no
materialization plan gets an error entry. -/
def errors_for (include_map : List Nat)
    (room_entries : List RoomSyncResultBuilder) : List Nat :=
  (firstOccur include_map).filter
    (fun rid => !(decide (rid ∈ room_entries.map RoomSyncResultBuilder.room_id)))

theorem grc_archived_for_eq (I : GrcInput) (rid : Nat)
    (r : RoomSyncResultBuilder) (h : grc_archived_for I rid = some r) :
    r.rtype = Rtype.archived ∧ r.room_id = rid ∧ rid ∉ I.joined_room_ids := by
  unfold grc_archived_for at h
  by_cases hj : rid ∈ I.joined_room_ids
  · simp [hj] at h
  · rw [if_neg hj] at h
    split at h
    · simp at h
    · split at h
      · simp at h
      · rw [Option.some.injEq] at h
        exact ⟨by rw [← h], by rw [← h], hj⟩

theorem grc_invite_for_eq (I : GrcInput) (rid : Nat) (p : Nat × Event)
    (h : grc_invite_for I rid = some p) :
    p.1 = rid ∧ rid ∉ I.joined_room_ids := by
  unfold grc_invite_for at h
  by_cases hj : rid ∈ I.joined_room_ids
  · simp [hj] at h
  · rw [if_neg hj] at h
    split at h
    · simp at h
    · split at h
      · split at h
        · rw [Option.some.injEq] at h
          exact ⟨by rw [← h], hj⟩
        · simp at h
      · simp at h

theorem grc_joined_plan_fields (I : GrcInput) (rid : Nat) :
    (grc_joined_plan I rid).room_id = rid ∧
    (grc_joined_plan I rid).rtype = Rtype.joined := by
  unfold grc_joined_plan
  split
  · exact ⟨rfl, rfl⟩
  · exact ⟨rfl, rfl⟩

/-- C2 (amended): in the incremental change resolver, a room occurs in at
most one of the joined and archived plan sets; an invited room never has
a joined plan; and a peek-error room has neither a joined nor an archived
plan.  (The claim's full pairwise disjointness fails: a room whose change
set ends leave-then-invite gets BOTH an Invited result and an archived
plan — see the counterexample — and a peeked room can likewise be invited
and in errors.) -/
theorem C2_rooms_sections_amended :
    ∀ (I : GrcInput) (include_map : List Nat) (rid : Nat),
      (¬ (rid ∈ ((get_rooms_changed I).1.filter
            (fun r => decide (r.rtype = Rtype.joined))).map
            RoomSyncResultBuilder.room_id ∧
          rid ∈ ((get_rooms_changed I).1.filter
            (fun r => decide (r.rtype = Rtype.archived))).map
            RoomSyncResultBuilder.room_id))
      ∧ (rid ∈ (get_rooms_changed I).2.1.map Prod.fst →
           rid ∉ ((get_rooms_changed I).1.filter
             (fun r => decide (r.rtype = Rtype.joined))).map
             RoomSyncResultBuilder.room_id)
      ∧ (rid ∈ errors_for include_map (get_rooms_changed I).1 →
           rid ∉ (get_rooms_changed I).1.map RoomSyncResultBuilder.room_id) := by
  intro I inc rid
  have hjoin : rid ∈ ((get_rooms_changed I).1.filter
      (fun r => decide (r.rtype = Rtype.joined))).map
      RoomSyncResultBuilder.room_id → rid ∈ I.joined_room_ids := by
    intro hm
    rcases List.mem_map.mp hm with ⟨r, hr, hrid⟩
    rw [List.mem_filter] at hr
    obtain ⟨hr1, hr2⟩ := hr
    have hr2' : r.rtype = Rtype.joined := of_decide_eq_true hr2
    simp only [get_rooms_changed] at hr1
    rcases List.mem_append.mp hr1 with hA | hJ
    · rcases List.mem_filterMap.mp hA with ⟨rid0, _, hsome⟩
      have harch := (grc_archived_for_eq I rid0 r hsome).1
      rw [harch] at hr2'
      exact Rtype.noConfusion hr2'
    · rcases List.mem_map.mp hJ with ⟨j, hjmem, hjeq⟩
      have hfields := grc_joined_plan_fields I j
      rw [hjeq] at hfields
      have : rid = j := by rw [← hrid, hfields.1]
      exact this ▸ hjmem
  have harchj : rid ∈ ((get_rooms_changed I).1.filter
      (fun r => decide (r.rtype = Rtype.archived))).map
      RoomSyncResultBuilder.room_id → rid ∉ I.joined_room_ids := by
    intro hm
    rcases List.mem_map.mp hm with ⟨r, hr, hrid⟩
    rw [List.mem_filter] at hr
    obtain ⟨hr1, hr2⟩ := hr
    have hr2' : r.rtype = Rtype.archived := of_decide_eq_true hr2
    simp only [get_rooms_changed] at hr1
    rcases List.mem_append.mp hr1 with hA | hJ
    · rcases List.mem_filterMap.mp hA with ⟨rid0, _, hsome⟩
      obtain ⟨-, hrm, hnj⟩ := grc_archived_for_eq I rid0 r hsome
      have : rid = rid0 := by rw [← hrid, hrm]
      exact this ▸ hnj
    · rcases List.mem_map.mp hJ with ⟨j, -, hjeq⟩
      have hfields := grc_joined_plan_fields I j
      rw [hjeq] at hfields
      rw [hfields.2] at hr2'
      exact Rtype.noConfusion hr2'
  refine ⟨?_, ?_, ?_⟩
  · rintro ⟨hJ, hA⟩
    exact harchj hA (hjoin hJ)
  · intro hm hJ
    rcases List.mem_map.mp hm with ⟨p, hp, hpid⟩
    simp only [get_rooms_changed] at hp
    rcases List.mem_filterMap.mp hp with ⟨rid0, -, hsome⟩
    obtain ⟨h1, h2⟩ := grc_invite_for_eq I rid0 p hsome
    have : rid = rid0 := by rw [← hpid, h1]
    exact (this ▸ h2) (hjoin hJ)
  · intro hm
    unfold errors_for at hm
    rw [List.mem_filter] at hm
    simpa using hm.2

/-- A leave event in room 7 from user 2. -/
def ceL : Event :=
  { ce1 with
    event_id := 100
    room_id := 7
    sender := 2
    membership := Membership.leave
    pos := 50
    before := 49 }

/-- An invite event in room 7 from user 3, later than `ceL`. -/
def ceI : Event :=
  { ce1 with
    event_id := 101
    room_id := 7
    sender := 3
    membership := Membership.invite
    pos := 60
    before := 59 }

/-- The C2 counterexample input: the user left room 7 and was re-invited
within one sync window; the room is not currently joined. -/
def c2_input : GrcInput :=
  { joined_room_ids := [],
    rooms_changed := [ceL, ceI],
    old_membership := fun _ => none,
    leave_stream := fun _ => 0,
    since_is_after := fun _ => false,
    room_to_events := fun _ => none,
    ignored_users := [],
    since_token := { room_key := 1 },
    now_token := { room_key := 9 } }

/-- C2 counterexample: room 7 gets an Invited result AND an archived
materialization plan in the same resolver run — a room in two sections. -/
theorem C2_rooms_sections_counterexample :
    7 ∈ (get_rooms_changed c2_input).2.1.map Prod.fst ∧
    7 ∈ ((get_rooms_changed c2_input).1.filter
      (fun r => decide (r.rtype = Rtype.archived))).map
      RoomSyncResultBuilder.room_id := by
  decide

/-- An invite event in room 7 sent by (ignored) user 2. -/
def ceI7 : Event :=
  { ce1 with
    event_id := 100
    room_id := 7
    sender := 2
    membership := Membership.invite
    pos := 50
    before := 49 }

/-- A leave event in room 8 from (not ignored) user 3, the LAST
membership-change event of the window. -/
def ceL8 : Event :=
  { ce1 with
    event_id := 101
    room_id := 8
    sender := 3
    membership := Membership.leave
    pos := 60
    before := 59 }

/-- The C3 failing input: user 2 (the inviter of room 7) is ignored, but
the last membership-change event of the whole window is `ceL8`, sent by
user 3. -/
def c3_input : GrcInput :=
  { joined_room_ids := [],
    rooms_changed := [ceI7, ceL8],
    old_membership := fun _ => none,
    leave_stream := fun _ => 0,
    since_is_after := fun _ => false,
    room_to_events := fun _ => none,
    ignored_users := [2],
    since_token := { room_key := 1 },
    now_token := { room_key := 9 } }

/-- C3: the code produces an Invited result for room 7 although the
invite's sender (user 2) IS in the ignored-users set — because the
`event.sender not in ignored_users` check reads the leaked loop variable
`event`, i.e. the last membership event across all rooms (`ceL8`, sender
3), not the invite event. -/
theorem C3_ignored_inviter_bug :
    (get_rooms_changed c3_input).2.1 = [(7, ceI7)] ∧
    ceI7.sender ∈ c3_input.ignored_users := by
  decide

/-- C2 witness: the amended disjointness applied at the C3 input, where
room 7 is invited and hence (by the amended claim) has no joined plan. -/
theorem C2_rooms_sections_witness :
    7 ∉ ((get_rooms_changed c3_input).1.filter
      (fun r => decide (r.rtype = Rtype.joined))).map
      RoomSyncResultBuilder.room_id :=
  (C2_rooms_sections_amended c3_input [] 7).2.1 (by decide)

/-- Stable insertion (descending by timestamp, ties keep original order)
for the model of Python's stable `sorted(room_map.items(),
key=lambda item: -item[1])`. -/
def insertDesc (x : Nat × Nat) : List (Nat × Nat) → List (Nat × Nat)
  | [] => [x]
  | y :: ys => if x.2 < y.2 then y :: insertDesc x ys else x :: y :: ys

/-- Stable sort, descending by timestamp. -/
def sortDesc (l : List (Nat × Nat)) : List (Nat × Nat) :=
  l.foldr insertDesc []

/-- The lazy-loading pagination block of `_generate_sync_entry_for_rooms`
(sync.py lines 835-893), entered when a pagination config is active.
`room_map` is the result of `_get_room_timestamps_at_token` (room id to
latest visible timestamp); `old_pagination_value` is 0 for a fresh config
and the previous `pagination_state.value` when a page is continued.
Returns the filtered `room_entries`, the new
`sync_result_builder.pagination_state` and `pagination_info["limited"]`.
Python's `cutoff_list[-1]` is modelled with `getLast?` and a default 0
(the source would raise `IndexError` when `pagination_limit + extra_limit
= 0`). -/
def pagination_block (room_entries : List RoomSyncResultBuilder)
    (room_map : List (Nat × Nat)) (pagination_limit extra_limit : Nat)
    (old_pagination_value : Nat) (order tags : Nat)
    (old_pagination_state : Option SyncPaginationState)
    (now_token : StreamToken) :
    List RoomSyncResultBuilder × Option SyncPaginationState × Bool :=
  if room_map.isEmpty then
    let pstate := if room_map.length = room_entries.length then none
                  else old_pagination_state
    (room_entries.filter (fun r => r.always_include), pstate, false)
  else
    let sorted_list := sortDesc room_map
    let cutoff_list := sorted_list.take (pagination_limit + extra_limit)
    let new_room_ids := (cutoff_list.drop pagination_limit).map Prod.fst
    let entries1 :=
      if (cutoff_list.drop pagination_limit).isEmpty then room_entries
      else room_entries.map (fun r =>
        if r.room_id ∈ new_room_ids then
          { r with full_state := true, always_include := true,
                   since_token := none, upto_token := now_token,
                   events := none }
        else r)
    let value := ((cutoff_list.getLast?).map Prod.snd).getD 0
    let limited := (sorted_list.drop (pagination_limit + extra_limit)).any
      (fun q => decide (old_pagination_value < q.2) && decide (q.2 < value))
    let pstate0 : Option SyncPaginationState :=
      some { order := order, value := value,
             limit := pagination_limit + extra_limit, tags := tags }
    let pstate := if room_map.length = room_entries.length then none
                  else pstate0
    let to_sync_ids := cutoff_list.map Prod.fst
    (entries1.filter (fun r =>
       decide (r.room_id ∈ to_sync_ids) || r.always_include),
     pstate, limited)

/-- C9 (amended): the pagination block clears `pagination_state` exactly
when `len(room_map) == len(room_entries)`, i.e. when every candidate room
made it into the timestamp map — NOT when `|room_map| ≤ pagination_limit`.
(When `|room_map| ≤ pagination_limit` the timestamp fetcher returned
every candidate room, so the state is indeed cleared; but the converse
fails: with `pagination_limit + 1` candidate rooms, all of them are in
`room_map` and the state is cleared although `|room_map| >
pagination_limit` — see the counterexample.)  The hypothesis records the
fetcher's guarantee that `room_map` is empty only when there are no
candidate rooms. -/
theorem C9_pagination_state_amended :
    ∀ room_entries room_map pagination_limit extra_limit
      old_pagination_value order tags old_pagination_state now_token,
      (room_map = ([] : List (Nat × Nat)) → room_entries = []) →
      ((pagination_block room_entries room_map pagination_limit extra_limit
          old_pagination_value order tags old_pagination_state
          now_token).2.1 = none ↔
        room_map.length = room_entries.length) := by
  intro re rm plim extra old ordr tg ostate now h
  by_cases hm : rm.isEmpty
  · have hrm : rm = [] := List.isEmpty_iff.mp hm
    have hre : re = [] := h hrm
    subst hrm
    subst hre
    simp [pagination_block]
  · unfold pagination_block
    rw [if_neg hm]
    by_cases hlen : rm.length = re.length
    · simp [hlen]
    · simp [hlen]

/-- A minimal joined plan for room `i`, used in the C9 evaluation. -/
def c9_plan (i : Nat) : RoomSyncResultBuilder :=
  { room_id := i, rtype := Rtype.joined, events := some [],
    newly_joined := false, full_state := false, since_token := none,
    upto_token := { room_key := 0 } }

/-- Eleven candidate rooms. -/
def c9_entries : List RoomSyncResultBuilder := (List.range 11).map c9_plan

/-- All eleven rooms in the timestamp map, with distinct timestamps. -/
def c9_room_map : List (Nat × Nat) := (List.range 11).map (fun i => (i, 100 + i))

/-- C9 counterexample: with `pagination_limit = 10` and eleven candidate
rooms all present in `room_map`, the returned `pagination_state` is
`None` although `|room_map| = 11 > 10` — refuting "`pagination_state =
null` exactly when `|room_map| ≤ limit`". -/
theorem C9_pagination_state_counterexample :
    (pagination_block c9_entries c9_room_map 10 0 0 0 0 none
      { room_key := 0 }).2.1 = none ∧
    ¬ (c9_room_map.length ≤ 10) := by
  decide

/-- C9 witness: the amended equivalence applied at the concrete eleven-room
input. -/
theorem C9_pagination_state_witness :
    (pagination_block c9_entries c9_room_map 10 0 0 0 0 none
      { room_key := 0 }).2.1 = none :=
  (C9_pagination_state_amended c9_entries c9_room_map 10 0 0 0 0 none
    { room_key := 0 } (by decide)).mpr (by decide)

end Synapse
